import Mathlib

/-!
Shallow embedding of the dgraphtest asynchronous task-polling helper
(functions RunAdminQuery, Backup, WaitForTask and the constant
waitDurBeforeRetry).

The transport and JSON layers are abstracted: the result of one call to
the AdminPost transport, together with the deterministic outcome of the
JSON unmarshalling steps applied to the bytes it returns, is a value of
type AdminCallResult.  The marshalling of the request parameters (a
struct of string fields) always succeeds and is not modelled as a
failure source.  The unbounded polling loop of WaitForTask is embedded
with an explicit fuel argument: a result of none means the loop was
still running when the fuel ran out, so non-termination is expressed as
"none for every fuel".  The embedding also records the trace of sleep
and query events that the loop performs, and the number of status
queries issued when it returns.
-/

/-- Outcome of applying the go json.Unmarshal decoders to the raw data
payload (the json.RawMessage carried in the Data field of a decoded
graphQLResponse).  statusDecode is the result of unmarshalling into the
statusResp struct of WaitForTask: none when the unmarshal fails, some s
when it succeeds with Task.Status equal to s (s is the empty string when
the status field is absent, go's zero value).  backupDecode likewise is
the result of unmarshalling into the backupResp struct of Backup:
none on failure, some (code, taskId) on success. -/
structure RawJSON where
  statusDecode : Option String
  backupDecode : Option (String × String)
  deriving DecidableEq, Repr

/-- The body returned by the AdminPost transport, as seen through the
json.Unmarshal into graphQLResponse performed by RunAdminQuery:
undecodable when that unmarshal fails, decoded errs data when it
succeeds with error list errs and data payload data. -/
inductive RespBody where
  | undecodable : RespBody
  | decoded (errs : List String) (data : RawJSON) : RespBody
  deriving DecidableEq, Repr

/-- Result of one AdminPost transport call: netErr msg when the call
itself returns an error, ok body when it returns a body. -/
inductive AdminCallResult where
  | netErr (msg : String) : AdminCallResult
  | ok (body : RespBody) : AdminCallResult
  deriving DecidableEq, Repr

/-- The distinct error returns of RunAdminQuery, WaitForTask and Backup,
one constructor per go error site. -/
inductive GoErr where
  | transportErr (msg : String) : GoErr
  | gqlUnmarshalErr : GoErr
  | gqlErrorsErr (errs : List String) : GoErr
  | statusUnmarshalErr : GoErr
  | taskFailedErr (status : String) : GoErr
  | backupUnmarshalErr : GoErr
  | backupFailedErr : GoErr
  deriving DecidableEq, Repr

/-- The constant waitDurBeforeRetry = time.Second, measured in seconds. -/
def waitDurBeforeRetry : Nat := 1

/-- Embedding of RunAdminQuery: propagate a transport error, fail when
the graphQLResponse unmarshal fails, fail when the decoded error list is
non-empty, and otherwise return the data payload. -/
def RunAdminQuery (call : AdminCallResult) : Except GoErr RawJSON :=
  match call with
  | .netErr msg => .error (.transportErr msg)
  | .ok .undecodable => .error .gqlUnmarshalErr
  | .ok (.decoded errs payload) =>
      if errs.length > 0 then .error (.gqlErrorsErr errs) else .ok payload

/-- One iteration of the WaitForTask loop after the sleep, given the
AdminCallResult of that iteration's status query: some r when the
iteration returns from the function with result r, none when it falls
through to the next iteration.  Mirrors the go code: propagate a
RunAdminQuery error, fail when the statusResp unmarshal fails, then
switch on the status string. -/
def waitIteration (r : AdminCallResult) : Option (Except GoErr Unit) :=
  match RunAdminQuery r with
  | .error e => some (.error e)
  | .ok payload =>
      match payload.statusDecode with
      | none => some (.error .statusUnmarshalErr)
      | some s =>
          if s = "Success" then some (.ok ())
          else if s = "Failed" ∨ s = "Unknown" then
            some (.error (.taskFailedErr s))
          else none

/-- The status string decoded by one poll, when both the graphQLResponse
and the statusResp unmarshals succeed. -/
def decodedStatus (r : AdminCallResult) : Option String :=
  match RunAdminQuery r with
  | .error _ => none
  | .ok payload => payload.statusDecode

/-- The three status strings the WaitForTask switch treats as terminal. -/
def terminalStatus (s : String) : Prop :=
  s = "Success" ∨ s = "Failed" ∨ s = "Unknown"

instance terminalStatus.decidable (s : String) : Decidable (terminalStatus s) :=
  inferInstanceAs (Decidable (s = "Success" ∨ s = "Failed" ∨ s = "Unknown"))

/-- Observable events of the WaitForTask loop: a sleep of a given number
of seconds, or the issuing of the status query with the given poll
index. -/
inductive Event where
  | sleep (seconds : Nat) : Event
  | query (idx : Nat) : Event
  deriving DecidableEq, Repr

/-- The WaitForTask loop, started at poll index i with the given fuel.
The environment polls gives the AdminCallResult of each status query.
Returns the trace of events performed and, when the loop returned
within the fuel, the function result paired with the total number of
status queries issued. -/
def WaitForTaskAux (polls : Nat → AdminCallResult) :
    Nat → Nat → List Event × Option (Except GoErr Unit × Nat)
  | _, 0 => ([], none)
  | i, fuel + 1 =>
      match waitIteration (polls i) with
      | some res => ([Event.sleep waitDurBeforeRetry, Event.query i], some (res, i + 1))
      | none =>
          (Event.sleep waitDurBeforeRetry :: Event.query i ::
              (WaitForTaskAux polls (i + 1) fuel).1,
            (WaitForTaskAux polls (i + 1) fuel).2)

/-- Embedding of WaitForTask: the result (with the count of status
queries issued) of running the loop from the first poll, none when the
fuel was exhausted with the loop still running. -/
def WaitForTask (polls : Nat → AdminCallResult) (fuel : Nat) :
    Option (Except GoErr Unit × Nat) :=
  (WaitForTaskAux polls 0 fuel).2

/-- The trace of sleep and query events performed by WaitForTask. -/
def WaitTrace (polls : Nat → AdminCallResult) (fuel : Nat) : List Event :=
  (WaitForTaskAux polls 0 fuel).1

/-- Embedding of Backup: run the admin mutation, propagate its error,
fail when the backupResp unmarshal fails, fail with backupFailedErr when
the response code is not "Success", and otherwise wait on the returned
task id.  backupCall is the AdminCallResult of the backup mutation;
polls gives, for each task id, the AdminCallResult of each status poll
for that id.  The Nat in the result counts the status queries issued. -/
def Backup (backupCall : AdminCallResult) (polls : String → Nat → AdminCallResult)
    (fuel : Nat) : Option (Except GoErr Unit × Nat) :=
  match RunAdminQuery backupCall with
  | .error e => some (.error e, 0)
  | .ok payload =>
      match payload.backupDecode with
      | none => some (.error .backupUnmarshalErr, 0)
      | some (code, taskId) =>
          if code = "Success" then WaitForTask (polls taskId) fuel
          else some (.error .backupFailedErr, 0)

/-- n repetitions of the block [sleep waitDurBeforeRetry, query _],
with query indices counting up from i. -/
def sleepQueryBlock : Nat → Nat → List Event
  | _, 0 => []
  | i, n + 1 =>
      Event.sleep waitDurBeforeRetry :: Event.query i :: sleepQueryBlock (i + 1) n

/-- What the iteration does as a function of the decoded status string. -/
def statusCase (s : String) : Option (Except GoErr Unit) :=
  if s = "Success" then some (Except.ok ())
  else if s = "Failed" ∨ s = "Unknown" then some (Except.error (GoErr.taskFailedErr s))
  else none

theorem waitAux_zero (polls : Nat → AdminCallResult) (i : Nat) :
    WaitForTaskAux polls i 0 = ([], none) := rfl

theorem waitAux_succ (polls : Nat → AdminCallResult) (i fuel : Nat) :
    WaitForTaskAux polls i (fuel + 1) =
      match waitIteration (polls i) with
      | some res => ([Event.sleep waitDurBeforeRetry, Event.query i], some (res, i + 1))
      | none =>
          (Event.sleep waitDurBeforeRetry :: Event.query i ::
              (WaitForTaskAux polls (i + 1) fuel).1,
            (WaitForTaskAux polls (i + 1) fuel).2) := rfl

theorem waitAux_succ_decided (polls : Nat → AdminCallResult) (i fuel : Nat)
    (res : Except GoErr Unit) (h : waitIteration (polls i) = some res) :
    WaitForTaskAux polls i (fuel + 1) =
      ([Event.sleep waitDurBeforeRetry, Event.query i], some (res, i + 1)) := by
  rw [waitAux_succ, h]

theorem waitAux_succ_continue (polls : Nat → AdminCallResult) (i fuel : Nat)
    (h : waitIteration (polls i) = none) :
    WaitForTaskAux polls i (fuel + 1) =
      (Event.sleep waitDurBeforeRetry :: Event.query i ::
          (WaitForTaskAux polls (i + 1) fuel).1,
        (WaitForTaskAux polls (i + 1) fuel).2) := by
  rw [waitAux_succ, h]

theorem waitIteration_eq_statusCase (r : AdminCallResult) (s : String)
    (h : decodedStatus r = some s) :
    waitIteration r = statusCase s := by
  unfold decodedStatus at h
  unfold waitIteration
  cases hr : RunAdminQuery r with
  | error e => simp [hr] at h
  | ok payload =>
      simp only [hr] at h ⊢
      rw [h, statusCase]

theorem waitIteration_continue (r : AdminCallResult) (s : String)
    (h : decodedStatus r = some s) (hnt : ¬ terminalStatus s) :
    waitIteration r = none := by
  rw [waitIteration_eq_statusCase r s h]
  unfold terminalStatus at hnt
  push_neg at hnt
  obtain ⟨h1, h2, h3⟩ := hnt
  simp [statusCase, h1, h2, h3]

theorem waitAux_none (polls : Nat → AdminCallResult) :
    ∀ (fuel i : Nat), (∀ j, waitIteration (polls (i + j)) = none) →
      (WaitForTaskAux polls i fuel).2 = none := by
  intro fuel
  induction fuel with
  | zero => intro i _; rfl
  | succ n ih =>
      intro i h
      have h0 : waitIteration (polls i) = none := by simpa using h 0
      rw [waitAux_succ_continue polls i n h0]
      have hj : ∀ j, waitIteration (polls (i + 1 + j)) = none := by
        intro j
        have hx := h (j + 1)
        have e : i + (j + 1) = i + 1 + j := by omega
        rwa [e] at hx
      exact ih (i + 1) hj

theorem waitAux_first_decided (polls : Nat → AdminCallResult) :
    ∀ (k i fuel : Nat) (res : Except GoErr Unit),
      (∀ j, j < k → waitIteration (polls (i + j)) = none) →
      waitIteration (polls (i + k)) = some res → k < fuel →
      (WaitForTaskAux polls i fuel).2 = some (res, i + k + 1) := by
  intro k
  induction k with
  | zero =>
      intro i fuel res _ hk hf
      obtain ⟨n, rfl⟩ : ∃ n, fuel = n + 1 := ⟨fuel - 1, by omega⟩
      rw [waitAux_succ_decided polls i n res (by simpa using hk)]
  | succ m ih =>
      intro i fuel res hpre hk hf
      obtain ⟨n, rfl⟩ : ∃ n, fuel = n + 1 := ⟨fuel - 1, by omega⟩
      have h0 : waitIteration (polls i) = none := by
        simpa using hpre 0 (Nat.succ_pos m)
      rw [waitAux_succ_continue polls i n h0]
      have hpre2 : ∀ j, j < m → waitIteration (polls (i + 1 + j)) = none := by
        intro j hj
        have hx := hpre (j + 1) (by omega)
        have e : i + (j + 1) = i + 1 + j := by omega
        rwa [e] at hx
      have hk2 : waitIteration (polls (i + 1 + m)) = some res := by
        have e : i + (m + 1) = i + 1 + m := by omega
        rwa [e] at hk
      show (WaitForTaskAux polls (i + 1) n).2 = some (res, i + (m + 1) + 1)
      rw [show i + (m + 1) + 1 = i + 1 + m + 1 from by omega]
      exact ih (i + 1) n res hpre2 hk2 (by omega)

theorem waitAux_some_decided (polls : Nat → AdminCallResult) :
    ∀ (fuel i : Nat) (r : Except GoErr Unit × Nat),
      (WaitForTaskAux polls i fuel).2 = some r →
      ∃ j, waitIteration (polls (i + j)) ≠ none := by
  intro fuel
  induction fuel with
  | zero => intro i r h; exact absurd h (by simp [waitAux_zero])
  | succ n ih =>
      intro i r h
      cases hw : waitIteration (polls i) with
      | some res => exact ⟨0, by simp [hw]⟩
      | none =>
          rw [waitAux_succ_continue polls i n hw] at h
          obtain ⟨j, hj⟩ := ih (i + 1) r h
          refine ⟨j + 1, ?_⟩
          rw [show i + (j + 1) = i + 1 + j from by omega]
          exact hj

theorem waitAux_trace_shape (polls : Nat → AdminCallResult) :
    ∀ (fuel i : Nat), ∃ n, (WaitForTaskAux polls i fuel).1 = sleepQueryBlock i n := by
  intro fuel
  induction fuel with
  | zero => intro i; exact ⟨0, rfl⟩
  | succ m ih =>
      intro i
      cases hw : waitIteration (polls i) with
      | some res =>
          refine ⟨1, ?_⟩
          rw [waitAux_succ_decided polls i m res hw]
          rfl
      | none =>
          obtain ⟨n, hn⟩ := ih (i + 1)
          refine ⟨n + 1, ?_⟩
          rw [waitAux_succ_continue polls i m hw]
          show Event.sleep waitDurBeforeRetry :: Event.query i ::
              (WaitForTaskAux polls (i + 1) m).1 = sleepQueryBlock i (n + 1)
          rw [hn, sleepQueryBlock]

/-- C1: WaitForTask returns at the first poll whose decoded status is
terminal: "Success" gives success, "Failed" or "Unknown" gives an error,
and in either case the total number of status queries issued is exactly
the index of that poll plus one, so no further status queries follow it;
every earlier (non-terminal) status made the loop poll again. -/
theorem wait_stops_at_first_terminal (polls : Nat → AdminCallResult)
    (statusSeq : Nat → String) (k fuel : Nat)
    (hdec : ∀ i, i ≤ k → decodedStatus (polls i) = some (statusSeq i))
    (hrun : ∀ i, i < k → ¬ terminalStatus (statusSeq i))
    (hterm : terminalStatus (statusSeq k))
    (hfuel : k < fuel) :
    WaitForTask polls fuel =
      some ((if statusSeq k = "Success" then Except.ok ()
             else Except.error (GoErr.taskFailedErr (statusSeq k))), k + 1) := by
  have hres : waitIteration (polls k) =
      some (if statusSeq k = "Success" then Except.ok ()
            else Except.error (GoErr.taskFailedErr (statusSeq k))) := by
    rw [waitIteration_eq_statusCase (polls k) (statusSeq k) (hdec k le_rfl)]
    unfold statusCase
    by_cases hs : statusSeq k = "Success"
    · simp [hs]
    · have hfo : statusSeq k = "Failed" ∨ statusSeq k = "Unknown" := by
        rcases hterm with h | h | h
        · exact absurd h hs
        · exact Or.inl h
        · exact Or.inr h
      simp [hs, hfo]
  have hpre : ∀ j, j < k → waitIteration (polls (0 + j)) = none := by
    intro j hj
    have := waitIteration_continue (polls j) (statusSeq j)
      (hdec j (le_of_lt hj)) (hrun j hj)
    simpa using this
  have h := waitAux_first_decided polls k 0 fuel _ hpre (by simpa using hres) hfuel
  simpa [WaitForTask] using h

theorem wait_stops_at_first_terminal_witness :
    WaitForTask (fun _ => AdminCallResult.ok (RespBody.decoded []
        { statusDecode := some "Failed", backupDecode := none })) 1 =
      some (Except.error (GoErr.taskFailedErr "Failed"), 1) := by
  have h := wait_stops_at_first_terminal
      (fun _ => AdminCallResult.ok (RespBody.decoded []
        { statusDecode := some "Failed", backupDecode := none }))
      (fun _ => "Failed") 0 1
      (fun _ _ => rfl) (fun i hi => absurd hi (Nat.not_lt_zero i))
      (Or.inr (Or.inl rfl)) Nat.zero_lt_one
  simpa using h

/-- C2: for a status sequence whose first two polls decode to
non-terminal (still-running) statuses and whose third poll decodes to
"Success", WaitForTask returns success having issued exactly 3 status
queries. -/
theorem wait_success_after_two_running (polls : Nat → AdminCallResult)
    (s0 s1 : String) (fuel : Nat)
    (h0 : decodedStatus (polls 0) = some s0) (h0r : ¬ terminalStatus s0)
    (h1 : decodedStatus (polls 1) = some s1) (h1r : ¬ terminalStatus s1)
    (h2 : decodedStatus (polls 2) = some "Success")
    (hfuel : 3 ≤ fuel) :
    WaitForTask polls fuel = some (Except.ok (), 3) := by
  have hpre : ∀ j, j < 2 → waitIteration (polls (0 + j)) = none := by
    intro j hj
    have hj01 : j = 0 ∨ j = 1 := by omega
    rcases hj01 with rfl | rfl
    · simpa using waitIteration_continue (polls 0) s0 h0 h0r
    · simpa using waitIteration_continue (polls 1) s1 h1 h1r
  have hk : waitIteration (polls (0 + 2)) = some (Except.ok ()) := by
    have h := waitIteration_eq_statusCase (polls 2) "Success" h2
    simpa [statusCase] using h
  have h := waitAux_first_decided polls 2 0 fuel (Except.ok ()) hpre hk (by omega)
  simpa [WaitForTask] using h

theorem wait_success_after_two_running_witness :
    WaitForTask (fun i => AdminCallResult.ok (RespBody.decoded []
        { statusDecode := some (if i < 2 then "Running" else "Success"),
          backupDecode := none })) 3 =
      some (Except.ok (), 3) := by
  have h := wait_success_after_two_running
      (fun i => AdminCallResult.ok (RespBody.decoded []
        { statusDecode := some (if i < 2 then "Running" else "Success"),
          backupDecode := none }))
      "Running" "Running" 3
      rfl (by decide) rfl (by decide) rfl (by omega)
  simpa using h

/-- C3: WaitForTask has no retry bound: whenever every poll decodes to a
non-terminal status (so no poll errs and none is "Success", "Failed" or
"Unknown"), the loop returns no result for any amount of fuel; and in
general the loop terminates within some fuel exactly when some poll's
iteration decides (yields a terminal status or an error). -/
theorem wait_never_terminates (polls : Nat → AdminCallResult)
    (h : ∀ i, ∃ s, decodedStatus (polls i) = some s ∧ ¬ terminalStatus s) :
    (∀ fuel, WaitForTask polls fuel = none) ∧
    (∀ q : Nat → AdminCallResult,
      (∃ fuel r, WaitForTask q fuel = some r) ↔ (∃ i, waitIteration (q i) ≠ none)) := by
  constructor
  · intro fuel
    have hall : ∀ j, waitIteration (polls (0 + j)) = none := by
      intro j
      obtain ⟨s, hs, hns⟩ := h j
      simpa using waitIteration_continue (polls j) s hs hns
    exact waitAux_none polls fuel 0 hall
  · intro q
    constructor
    · rintro ⟨fuel, r, hr⟩
      obtain ⟨j, hj⟩ := waitAux_some_decided q fuel 0 r hr
      exact ⟨j, by simpa using hj⟩
    · rintro ⟨i, hi⟩
      classical
      have hex : ∃ i, waitIteration (q i) ≠ none := ⟨i, hi⟩
      have hk : waitIteration (q (Nat.find hex)) ≠ none := Nat.find_spec hex
      have hpre : ∀ j, j < Nat.find hex → waitIteration (q (0 + j)) = none := by
        intro j hj
        have h2 : waitIteration (q j) = none := not_not.mp (Nat.find_min hex hj)
        simpa using h2
      obtain ⟨res, hres⟩ : ∃ res, waitIteration (q (Nat.find hex)) = some res := by
        cases hw : waitIteration (q (Nat.find hex)) with
        | none => exact absurd hw hk
        | some res => exact ⟨res, rfl⟩
      refine ⟨Nat.find hex + 1, (res, Nat.find hex + 1), ?_⟩
      have h3 := waitAux_first_decided q (Nat.find hex) 0 (Nat.find hex + 1) res
        hpre (by simpa using hres) (by omega)
      simpa [WaitForTask] using h3

theorem wait_never_terminates_witness :
    WaitForTask (fun _ => AdminCallResult.ok (RespBody.decoded []
        { statusDecode := some "Running", backupDecode := none })) 5 = none := by
  have h := (wait_never_terminates
      (fun _ => AdminCallResult.ok (RespBody.decoded []
        { statusDecode := some "Running", backupDecode := none }))
      (fun _ => ⟨"Running", rfl, by decide⟩)).1 5
  exact h

/-- C4: when the status-query transport call fails on any poll (after
any number of still-running polls, so in particular on the second),
WaitForTask returns the transport error of that poll having issued
exactly that poll's number of status queries: the failure is propagated
immediately and never retried. -/
theorem wait_transport_error_stops (polls : Nat → AdminCallResult)
    (statusSeq : Nat → String) (k fuel : Nat) (msg : String)
    (hdec : ∀ i, i < k → decodedStatus (polls i) = some (statusSeq i))
    (hrun : ∀ i, i < k → ¬ terminalStatus (statusSeq i))
    (hk : polls k = AdminCallResult.netErr msg)
    (hfuel : k < fuel) :
    WaitForTask polls fuel = some (Except.error (GoErr.transportErr msg), k + 1) := by
  have hkw : waitIteration (polls k) = some (Except.error (GoErr.transportErr msg)) := by
    rw [hk]; rfl
  have hpre : ∀ j, j < k → waitIteration (polls (0 + j)) = none := by
    intro j hj
    have := waitIteration_continue (polls j) (statusSeq j) (hdec j hj) (hrun j hj)
    simpa using this
  have h := waitAux_first_decided polls k 0 fuel _ hpre (by simpa using hkw) hfuel
  simpa [WaitForTask] using h

theorem wait_transport_error_stops_witness :
    WaitForTask (fun i => if i = 0 then
        AdminCallResult.ok (RespBody.decoded []
          { statusDecode := some "Running", backupDecode := none })
      else AdminCallResult.netErr "connection refused") 2 =
      some (Except.error (GoErr.transportErr "connection refused"), 2) := by
  have h := wait_transport_error_stops
      (fun i => if i = 0 then
        AdminCallResult.ok (RespBody.decoded []
          { statusDecode := some "Running", backupDecode := none })
      else AdminCallResult.netErr "connection refused")
      (fun _ => "Running") 1 2 "connection refused"
      (by
        intro i hi
        have hz : i = 0 := by omega
        subst hz
        rfl)
      (by
        intro i hi
        have hz : i = 0 := by omega
        subst hz
        exact (by decide : ¬ terminalStatus "Running"))
      rfl (by omega)
  simpa using h

/-- C6: when on some poll the transport call succeeds and the
graphQLResponse decodes with an empty error list, but the status
response body cannot be unmarshalled, WaitForTask returns the decode
error of that poll at once, having issued exactly that poll's number of
status queries: no retry follows a malformed status body. -/
theorem wait_status_decode_error_stops (polls : Nat → AdminCallResult)
    (statusSeq : Nat → String) (k fuel : Nat) (payload : RawJSON)
    (hdec : ∀ i, i < k → decodedStatus (polls i) = some (statusSeq i))
    (hrun : ∀ i, i < k → ¬ terminalStatus (statusSeq i))
    (hk : RunAdminQuery (polls k) = Except.ok payload)
    (hks : payload.statusDecode = none)
    (hfuel : k < fuel) :
    WaitForTask polls fuel = some (Except.error GoErr.statusUnmarshalErr, k + 1) := by
  have hkw : waitIteration (polls k) = some (Except.error GoErr.statusUnmarshalErr) := by
    simp [waitIteration, hk, hks]
  have hpre : ∀ j, j < k → waitIteration (polls (0 + j)) = none := by
    intro j hj
    have := waitIteration_continue (polls j) (statusSeq j) (hdec j hj) (hrun j hj)
    simpa using this
  have h := waitAux_first_decided polls k 0 fuel _ hpre (by simpa using hkw) hfuel
  simpa [WaitForTask] using h

theorem wait_status_decode_error_stops_witness :
    WaitForTask (fun _ => AdminCallResult.ok (RespBody.decoded []
        { statusDecode := none, backupDecode := none })) 1 =
      some (Except.error GoErr.statusUnmarshalErr, 1) := by
  have h := wait_status_decode_error_stops
      (fun _ => AdminCallResult.ok (RespBody.decoded []
        { statusDecode := none, backupDecode := none }))
      (fun _ => "") 0 1 { statusDecode := none, backupDecode := none }
      (fun i hi => absurd hi (Nat.not_lt_zero i))
      (fun i hi => absurd hi (Nat.not_lt_zero i))
      rfl rfl Nat.zero_lt_one
  simpa using h

/-- C7: the polling interval is the fixed constant waitDurBeforeRetry =
1 second: the event trace of WaitForTask is always a sequence of blocks,
each a sleep of exactly waitDurBeforeRetry followed by one status query,
so the delay between consecutive queries is always that same one-second
sleep. -/
theorem wait_fixed_one_second_interval (polls : Nat → AdminCallResult) (fuel : Nat) :
    waitDurBeforeRetry = 1 ∧ ∃ n, WaitTrace polls fuel = sleepQueryBlock 0 n :=
  ⟨rfl, waitAux_trace_shape polls fuel 0⟩

/-- C8: WaitForTask sleeps before its very first status query: for every
environment (in particular one whose first poll is already terminal) the
event trace begins with a sleep of waitDurBeforeRetry followed by the
first query, so a sleep occurs before any status is observed. -/
theorem wait_sleeps_before_first_query (polls : Nat → AdminCallResult) (fuel : Nat) :
    ∃ rest, WaitTrace polls (fuel + 1) =
      Event.sleep waitDurBeforeRetry :: Event.query 0 :: rest := by
  cases hw : waitIteration (polls 0) with
  | some res =>
      exact ⟨[], by simp [WaitTrace, waitAux_succ_decided polls 0 fuel res hw]⟩
  | none =>
      exact ⟨(WaitForTaskAux polls 1 fuel).1,
        by simp [WaitTrace, waitAux_succ_continue polls 0 fuel hw]⟩

/-- C9: terminal-status recognition is an exact, case-sensitive string
match: for any poll whose decoded status is the string s, the loop
iteration falls through to another poll exactly when s is none of the
precise strings "Success", "Failed" and "Unknown"; every other decoded
status, the empty string included, is treated as still running. -/
theorem terminal_match_is_exact (r : AdminCallResult) (s : String)
    (h : decodedStatus r = some s) :
    waitIteration r = none ↔ ¬ (s = "Success" ∨ s = "Failed" ∨ s = "Unknown") := by
  rw [waitIteration_eq_statusCase r s h]
  unfold statusCase
  by_cases h1 : s = "Success"
  · simp [h1]
  · by_cases h2 : s = "Failed" ∨ s = "Unknown"
    · simp [h1, h2]
    · simp [h1, h2]

theorem terminal_match_is_exact_witness :
    waitIteration (AdminCallResult.ok (RespBody.decoded []
        { statusDecode := some "", backupDecode := none })) = none ∧
    waitIteration (AdminCallResult.ok (RespBody.decoded []
        { statusDecode := some "success", backupDecode := none })) = none := by
  constructor
  · exact (terminal_match_is_exact
      (AdminCallResult.ok (RespBody.decoded []
        { statusDecode := some "", backupDecode := none })) "" rfl).mpr (by decide)
  · exact (terminal_match_is_exact
      (AdminCallResult.ok (RespBody.decoded []
        { statusDecode := some "success", backupDecode := none })) "success" rfl).mpr
      (by decide)

/-- C5: when the administrative response used to obtain the task id
either cannot be decoded or decodes with a non-empty error list,
RunAdminQuery fails, so Backup returns an error with zero status queries
issued: WaitForTask is never reached. -/
theorem backup_submit_error_no_polls (backupCall : AdminCallResult)
    (polls : String → Nat → AdminCallResult) (fuel : Nat)
    (h : backupCall = AdminCallResult.ok RespBody.undecodable ∨
      ∃ errs payload, errs ≠ [] ∧
        backupCall = AdminCallResult.ok (RespBody.decoded errs payload)) :
    ∃ e, Backup backupCall polls fuel = some (Except.error e, 0) := by
  rcases h with rfl | ⟨errs, payload, hne, rfl⟩
  · exact ⟨GoErr.gqlUnmarshalErr, rfl⟩
  · refine ⟨GoErr.gqlErrorsErr errs, ?_⟩
    have hlen : errs.length > 0 := by
      cases errs with
      | nil => exact absurd rfl hne
      | cons a t => simp
    simp [Backup, RunAdminQuery, hlen]

theorem backup_submit_error_no_polls_witness :
    ∃ e, Backup (AdminCallResult.ok (RespBody.decoded ["some gql error"]
        { statusDecode := none, backupDecode := none }))
      (fun _ _ => AdminCallResult.netErr "unused") 5 = some (Except.error e, 0) :=
  backup_submit_error_no_polls _ _ 5
    (Or.inr ⟨["some gql error"], { statusDecode := none, backupDecode := none },
      by simp, rfl⟩)

/-- C10: when the backup mutation's response decodes successfully with
an empty error list and carries response code code and task id taskId,
Backup returns the fixed backup-failed error with zero status queries
whenever code is any string other than "Success", and hands over to
WaitForTask on the polls of taskId exactly when code = "Success". -/
theorem backup_code_gate (backupCall : AdminCallResult)
    (polls : String → Nat → AdminCallResult) (fuel : Nat)
    (payload : RawJSON) (code taskId : String)
    (hcall : backupCall = AdminCallResult.ok (RespBody.decoded [] payload))
    (hdec : payload.backupDecode = some (code, taskId)) :
    (code ≠ "Success" →
      Backup backupCall polls fuel = some (Except.error GoErr.backupFailedErr, 0)) ∧
    (code = "Success" →
      Backup backupCall polls fuel = WaitForTask (polls taskId) fuel) := by
  subst hcall
  constructor
  · intro hc
    simp [Backup, RunAdminQuery, hdec, hc]
  · intro hc
    simp [Backup, RunAdminQuery, hdec, hc]

theorem backup_code_gate_witness :
    Backup (AdminCallResult.ok (RespBody.decoded []
        { statusDecode := none, backupDecode := some ("Failure", "task-1") }))
      (fun _ _ => AdminCallResult.netErr "unused") 5 =
      some (Except.error GoErr.backupFailedErr, 0) :=
  (backup_code_gate
      (AdminCallResult.ok (RespBody.decoded []
        { statusDecode := none, backupDecode := some ("Failure", "task-1") }))
      (fun _ _ => AdminCallResult.netErr "unused") 5
      { statusDecode := none, backupDecode := some ("Failure", "task-1") }
      "Failure" "task-1" rfl rfl).1 (by decide)
